import Mathlib

/-!
Verification of the kani function-stubbing core against its specification.

The development shallowly embeds the stubbing subsystem of the kani compiler:
the body-query interception pipeline (mir_transform/mod.rs together with
stubbing/transform.rs and the codegen_cprover_gotoc variants), the
process-scoped stub-map store, the legacy stub-file installer, the duplicate
detection of the collection orchestrator (stubbing/annotations.rs), and the
path resolver (stubbing/annotations.rs).

Machine integers do not occur in the modelled code; identifiers (DefId) are
modelled as natural numbers, IR bodies as an abstract payload (Nat), and
canonical paths as strings.  Divergence (unbounded recursion through the
query wrapper or through cyclic imports) is modelled by a fuel parameter:
a result of none at the top level means the computation did not finish
within the given fuel.
-/

namespace Kani

/-! ## Body-query pipeline (mir_transform/mod.rs, stubbing/transform.rs,
codegen_cprover_gotoc/mir_transform) -/

/-- An IR body, consumed opaquely by the stubbing core; only cloning and
structural equality matter, so the payload is abstract. -/
abbrev Body := Nat

/-- A local definition as visible to iter_local_def_id: its canonical path
(def_path_str) and the optimized body produced for it by the default query
provider. -/
structure LocalDef where
  path : String
  body : Body
deriving DecidableEq, Repr

/-- The part of the compiler context the pipeline reads: the list of local
definitions, in the deterministic order of iter_local_def_id.  A DefId is an
index into this list. -/
structure Ctx where
  defs : List LocalDef
deriving DecidableEq, Repr

/-- Canonical path of a definition (tcx.def_path_str). -/
def Ctx.def_path_str (ctx : Ctx) (d : Nat) : String :=
  (ctx.defs.getD d ⟨"", 0⟩).path

/-- The body computed by the default optimized_mir provider
(DEFAULT_QUERY_PROVIDERS / DEFAULT_EXTERN_QUERY_PROVIDERS). -/
def Ctx.default_body (ctx : Ctx) (d : Nat) : Body :=
  (ctx.defs.getD d ⟨"", 0⟩).body

/-- StubbingPass::get_def_id: linear scan of local definitions for the first
one whose canonical path equals the given string. -/
def get_def_id (ctx : Ctx) (path : String) : Option Nat :=
  ctx.defs.findIdx? (fun ld => ld.path = path)

/-- IdentityPass::run_pass (identity.rs): does nothing to the body. -/
def identity_run_pass (body : Body) : Body := body

/-- StubbingPass::run_pass (stubbing/transform.rs, and the identical
codegen_cprover_gotoc/mir_transform/stubbing.rs variant): look up the
canonical path of the definition in the active map; on a hit, find a local
definition whose canonical path equals the replacement string and overwrite
the body with a clone of its optimized body obtained through the normal
query (the `optimized` argument, which is the installed wrapper and may
recurse); if the replacement does not resolve, log and leave the body
unchanged.  The active map is passed explicitly; its installation is
modelled separately by set_stub_mapping. -/
def stubbing_run_pass (optimized : Nat → Option Body) (ctx : Ctx)
    (mapping : List (String × String)) (d : Nat) (body : Body) : Option Body :=
  let name := ctx.def_path_str d
  match mapping.lookup name with
  | some replacement =>
    match get_def_id ctx replacement with
    | some replacement_id => optimized replacement_id
    | none => some body
  | none => some body

/-- run_kani_passes (mir_transform/mod.rs): clone the base body and run the
stubbing pass on the clone. -/
def run_kani_passes (optimized : Nat → Option Body) (ctx : Ctx)
    (mapping : List (String × String)) (d : Nat) (body : Body) : Option Body :=
  stubbing_run_pass optimized ctx mapping d body

/-- run_kani_passes (codegen_cprover_gotoc/mir_transform/mod.rs): clone the
base body, run the identity pass, then the stubbing pass. -/
def gotoc_run_kani_passes (optimized : Nat → Option Body) (ctx : Ctx)
    (mapping : List (String × String)) (d : Nat) (body : Body) : Option Body :=
  stubbing_run_pass optimized ctx mapping d (identity_run_pass body)

/-- The intercepted optimized-body query (run_transformation_passes wired as
providers.optimized_mir): compute the base body via the default provider,
then apply run_kani_passes.  Fuel bounds the recursion through the wrapper;
none means the query did not finish within the fuel. -/
def optimized_mir : Nat → Ctx → List (String × String) → Nat → Option Body
  | 0, _, _, _ => none
  | fuel + 1, ctx, mapping, d =>
    run_kani_passes (optimized_mir fuel ctx mapping) ctx mapping d (ctx.default_body d)

/-- The intercepted optimized-body query of the codegen_cprover_gotoc
pipeline: identity pass, then stubbing pass. -/
def gotoc_optimized_mir : Nat → Ctx → List (String × String) → Nat → Option Body
  | 0, _, _, _ => none
  | fuel + 1, ctx, mapping, d =>
    gotoc_run_kani_passes (gotoc_optimized_mir fuel ctx mapping) ctx mapping d
      (ctx.default_body d)

/-! ## Stub map store (stubbing/transform.rs STUB_MAPPING,
StubbingPass::set_stub_mapping) -/

/-- StubbingPass::set_stub_mapping: writes Some(mapping) into the
process-scoped slot, unconditionally replacing whatever was there. -/
def set_stub_mapping (_slot : Option (List (String × String)))
    (mapping : List (String × String)) : Option (List (String × String)) :=
  some mapping

/-- The read side of the slot (STUB_MAPPING.read); run_pass unwraps the
result and panics when the slot is still empty. -/
def read_stub_mapping (slot : Option (List (String × String))) :
    Option (List (String × String)) :=
  slot

/-! ## Map insertion (HashMap::insert): stores the new binding and returns
the previous value bound to the key, if any. -/

/-- HashMap::insert modelled on an association list with unique keys: the
first component is the previous binding of the key (None when the key is
fresh), the second the updated map. -/
def map_insert : List (String × String) → String → String →
    Option String × List (String × String)
  | [], k, v => (none, [(k, v)])
  | (a, b) :: rest, k, v =>
    if a = k then (some b, (k, v) :: rest)
    else
      let (old, m) := map_insert rest k v
      (old, (a, b) :: m)

/-! ## Legacy stub-file installer
(codegen_cprover_gotoc/mir_transform/stubbing.rs StubbingPass::initialize) -/

/-- Split of a character list at every occurrence of a single separator
character, keeping empty pieces, exactly as str::split with a one-character
pattern: an empty input yields one empty piece and a doubled separator
yields an empty piece between the two occurrences. -/
def split1 (c0 : Char) : List Char → List Char → List (List Char)
  | [], acc => [acc.reverse]
  | c :: cs, acc =>
    if c = c0 then acc.reverse :: split1 c0 cs []
    else split1 c0 cs (c :: acc)

/-- Split of a character list at every occurrence of a two-character
separator, scanning left to right, exactly as str::split with a
two-character pattern. -/
def split2 (c1 c2 : Char) : List Char → List Char → List (List Char)
  | [], acc => [acc.reverse]
  | [c], acc => [(c :: acc).reverse]
  | c :: c' :: cs, acc =>
    if c = c1 then
      if c' = c2 then acc.reverse :: split2 c1 c2 cs []
      else split2 c1 c2 (c' :: cs) (c :: acc)
    else split2 c1 c2 (c' :: cs) (c :: acc)

/-- line.split(" ") of the legacy installer. -/
def split_space (line : String) : List String :=
  (split1 ' ' line.toList []).map (fun l => String.mk l)

/-- name.split("::") of the path resolver. -/
def split_path_string (name : String) : List String :=
  (split2 ':' ':' name.toList []).map (fun l => String.mk l)

/-- One line of the legacy stubs file: split on single spaces; the assertion
pair.len() == 2 admits exactly two tokens, anything else is a panic
(modelled as none). -/
def parse_stub_line (line : String) : Option (String × String) :=
  match split_space line with
  | [original, replacement] => some (original, replacement)
  | _ => none

/-- The line-processing loop of the legacy installer: lines are applied in
order into the freshly emptied map; a malformed line aborts the process via
the failed assertion (none). -/
def stub_map_init_go : List (String × String) → List String →
    Option (List (String × String))
  | m, [] => some m
  | m, line :: rest =>
    match parse_stub_line line with
    | some (original, replacement) =>
      stub_map_init_go (map_insert m original replacement).2 rest
    | none => none

/-- The legacy stub-file installer, given the readable lines of the file
(BufReader::lines strips terminators): resets the slot to an empty map and
inserts each ORIGINAL REPLACEMENT pair in order. -/
def stub_map_init (lines : List String) : Option (List (String × String)) :=
  stub_map_init_go [] lines

/-- The binding the last line with a given ORIGINAL assigns to it, stated
the way the specification reads: lines are parsed in order and the last
occurrence of a key wins. -/
def last_binding : List String → String → Option String
  | [], _ => none
  | line :: rest, k =>
    match last_binding rest k with
    | some v => some v
    | none =>
      match split_space line with
      | [a, b] => if a = k then some b else none
      | _ => none

/-! ## Path resolver (stubbing/annotations.rs) -/

/-- Kinds of definitions the resolver distinguishes in a Res. -/
inductive DefKind
  | Fn
  | Mod
  | NotHandled
deriving DecidableEq, Repr

/-- Resolution target of a use path or of a foreign-module child. -/
inductive Res
  | Def (kind : DefKind) (def_id : Nat)
  | Other
deriving DecidableEq, Repr

/-- rustc_hir::UseKind. -/
inductive UseKind
  | Single
  | Glob
  | ListStem
deriving DecidableEq, Repr

/-- The kinds of HIR items the resolver inspects; everything else falls into
Other (in particular directly defined modules, which the source match does
not handle). -/
inductive ItemKind
  | Fn
  | Use (res : Res) (kind : UseKind)
  | Other
deriving DecidableEq, Repr

/-- A HIR item: its local identifier, its definition id, and its kind. -/
structure Item where
  ident : String
  def_id : Nat
  kind : ItemKind
deriving DecidableEq, Repr

/-- A child of a (possibly foreign) module as returned by
tcx.module_children. -/
structure ModChild where
  ident : String
  res : Res
deriving DecidableEq, Repr

/-- Result type of try_resolve_use. -/
inductive TryResolveUseResult
  | NotResolved
  | Fn (func : String)
  | Mod (mod_id : Nat)
deriving DecidableEq, Repr

/-- The compiler context the resolver consults.  DefIds and crate numbers
are natural numbers; every query is a total function so that concrete
instances evaluate. -/
structure Tcx where
  def_path_str : Nat → String
  module_items : Nat → List Item
  parent_module : Nat → Nat
  module_children : Nat → List ModChild
  crates : List Nat
  crate_name : Nat → String
  crate_root : Nat → Nat
  is_local : Nat → Bool

/-- Vec::join("::") on the segment list. -/
def join_path : List String → String
  | [] => ""
  | [s] => s
  | s :: rest => s ++ "::" ++ join_path rest

/-- The qualified name built by relative search: the canonical path of the
current module prepended to the joined user path, or the joined path alone
when the module is the crate root (whose canonical path is empty). -/
def qualify (module_name name : String) : String :=
  if module_name = "" then name else module_name ++ "::" ++ name

/-- try_resolve_use: a use path resolving to a function matches when the
local identifier of the use item equals the full joined user path; a use
path resolving to a module is reported for the caller to explore; anything
else is not resolved. -/
def try_resolve_use (tcx : Tcx) (name : String) (item : Item) (res : Res) :
    TryResolveUseResult :=
  match res with
  | Res.Def DefKind.Fn def_id =>
    if item.ident = name then TryResolveUseResult.Fn (tcx.def_path_str def_id)
    else TryResolveUseResult.NotResolved
  | Res.Def DefKind.Mod def_id => TryResolveUseResult.Mod def_id
  | _ => TryResolveUseResult.NotResolved

/-- The used_mods entries a single item contributes during relative search
(lines 185-197 of annotations.rs): a Single import of a module is recorded
with the shortened tail exactly when its local identifier equals the first
user-path segment, and otherwise not at all; a Glob import is always
recorded with no replacement tail; a ListStem contributes nothing.  The
source indexes path[0]; an empty path (which would panic there) contributes
nothing here, and every claim is settled on inputs where the path is
non-empty at this point. -/
def used_mods_for (item : Item) (mod_id : Nat) (kind : UseKind)
    (path : List String) : List (Nat × Option (List String)) :=
  match kind with
  | UseKind.Single =>
    match path with
    | p0 :: ptail => if item.ident = p0 then [(mod_id, some ptail)] else []
    | [] => []
  | UseKind.Glob => [(mod_id, none)]
  | UseKind.ListStem => []

/-- walk_to_crate_root: the parent-walking loop of the crate keyword, which
stops at the module whose canonical path is empty; fuel bounds the walk. -/
def walk_to_crate_root : Nat → Tcx → Nat → Option Nat
  | 0, _, _ => none
  | fuel + 1, tcx, cur =>
    if tcx.def_path_str cur = "" then some cur
    else walk_to_crate_root fuel tcx (tcx.parent_module cur)

/-- The crate lookup of the root keyword: the first known crate whose name
matches, mapped to its root definition id. -/
def find_crate (tcx : Tcx) (first : String) : Option Nat :=
  (tcx.crates.find? (fun cn => tcx.crate_name cn = first)).map tcx.crate_root

/-- The per-item loop of try_resolve_relative_path.  For each item in order:
a function item matches when its canonical path equals the qualified name; a
use item is handled through try_resolve_use, and any used_mods entries it
contributes are drained immediately (the scratch list lives inside the loop
in the source), descending into the imported module through the
resolve_mod callback (which dispatches on mod_id.as_local in the caller);
the first success is returned, otherwise the scan continues. -/
def resolve_in_items (resolve_mod : Nat → List String → Option String)
    (tcx : Tcx) (path : List String) (name qualified_name : String) :
    List Item → Option String
  | [] => none
  | item :: rest =>
    let step : Option String :=
      match item.kind with
      | ItemKind.Fn =>
        let fn_name := tcx.def_path_str item.def_id
        if qualified_name = fn_name then some fn_name else none
      | ItemKind.Use res kind =>
        match try_resolve_use tcx name item res with
        | TryResolveUseResult.Fn func => some func
        | TryResolveUseResult.Mod mod_id =>
          (used_mods_for item mod_id kind path).findSome? (fun um =>
            resolve_mod um.1 (um.2.getD path))
        | TryResolveUseResult.NotResolved => none
      | ItemKind.Other => none
    match step with
    | some r => some r
    | none => resolve_in_items resolve_mod tcx path name qualified_name rest

/-- The per-child loop of try_resolve_foreign_module for a non-empty path
p0 :: rest: a matching function child succeeds when no segment remains
after p0, a matching module child is descended into through the
descend callback when segments remain; the first success wins. -/
def foreign_children (descend : Nat → List String → Option String)
    (tcx : Tcx) (p0 : String) (rest : List String) :
    List ModChild → Option String :=
  List.findSome? (fun child =>
    if child.ident = p0 then
      match child.res with
      | Res.Def DefKind.Fn def_id =>
        if rest.isEmpty then some (tcx.def_path_str def_id) else none
      | Res.Def DefKind.Mod def_id =>
        if rest.isEmpty then none else descend def_id rest
      | _ => none
    else none)

mutual

/-- try_resolve_relative_path: build the joined and qualified names, then
scan the direct items of the current module in order, descending into
imported modules locally or by foreign-module search. -/
def try_resolve_relative_path : Nat → Tcx → Nat → List String → Option String
  | 0, _, _, _ => none
  | fuel + 1, tcx, current_module, path =>
    let name := join_path path
    resolve_in_items
      (fun mod_id p =>
        if tcx.is_local mod_id then try_resolve_relative_path fuel tcx mod_id p
        else try_resolve_foreign_module fuel tcx mod_id p)
      tcx path name
      (qualify (tcx.def_path_str current_module) name)
      (tcx.module_items current_module)

/-- try_resolve_foreign_module: scan the exported children of the module.
The source indexes path[0]; the empty-path case (a panic there) is mapped
to failure and never reached by the settled claims. -/
def try_resolve_foreign_module : Nat → Tcx → Nat → List String → Option String
  | 0, _, _, _ => none
  | fuel + 1, tcx, foreign_mod, path =>
    match path with
    | [] => none
    | p0 :: rest =>
      foreign_children
        (fun def_id p => try_resolve_foreign_module fuel tcx def_id p)
        tcx p0 rest (tcx.module_children foreign_mod)

end

/-- try_resolve_absolute_path_rec: strip the keyword head and dispatch.
self recurses on the tail; crate walks to the crate root and continues
relative search; super fails at the crate root or on a bare keyword and
otherwise continues relative search at the parent; the root keyword needs a
crate name and at least one further segment and descends by foreign-module
search from the named crate root.  A non-keyword head falls through to
relative search with the full path. -/
def try_resolve_absolute_path_rec : Nat → Tcx → Nat → List String → Option String
  | 0, _, _, _ => none
  | fuel + 1, tcx, current_module, path =>
    match path with
    | [] => none
    | p0 :: rest =>
      if p0 = "self" then
        if rest.isEmpty then none
        else try_resolve_absolute_path_rec fuel tcx current_module rest
      else if p0 = "crate" then
        match walk_to_crate_root (fuel + 1) tcx current_module with
        | none => none
        | some root =>
          if rest.isEmpty then none
          else try_resolve_relative_path fuel tcx root rest
      else if p0 = "super" then
        if tcx.def_path_str current_module = "" ∨ rest.isEmpty then none
        else try_resolve_relative_path fuel tcx (tcx.parent_module current_module) rest
      else if p0 = "\x7b\x7broot\x7d\x7d" then
        match rest with
        | [] => none
        | first :: rest2 =>
          if rest2.isEmpty then none
          else
            match find_crate tcx first with
            | none => none
            | some crate_def_id =>
              try_resolve_foreign_module fuel tcx crate_def_id rest2
      else try_resolve_relative_path fuel tcx current_module (p0 :: rest)

/-- is_absolute_path: the path is absolute when its first segment is one of
the keywords. -/
def is_absolute_path (path : List String) : Bool :=
  match path.headD "" with
  | "crate" | "super" | "self" | "\x7b\x7broot\x7d\x7d" => true
  | _ => false

/-- try_resolve_absolute_path: validation is a FIXME in the source; it just
recurses. -/
def try_resolve_absolute_path (fuel : Nat) (tcx : Tcx) (current_module : Nat)
    (path : List String) : Option String :=
  try_resolve_absolute_path_rec fuel tcx current_module path

/-- try_resolve: split the user string on the path separator and dispatch
on whether the first segment is a keyword.  The span diagnostic emitted on
failure is outside the embedding; none is the failed resolution. -/
def try_resolve (fuel : Nat) (tcx : Tcx) (name : String) (current_module : Nat) :
    Option String :=
  let path := split_path_string name
  if is_absolute_path path then
    try_resolve_absolute_path fuel tcx current_module path
  else
    try_resolve_relative_path fuel tcx current_module path

/-! ## Collection orchestrator: duplicate detection and abort
(stubbing/annotations.rs update_stub_mapping, after_analysis) -/

/-- The mutable collection state of one harness: the stub pairs gathered so
far and the diagnostics emitted into the error session. -/
structure CollectState where
  stub_pairs : List (String × String)
  errors : List String
deriving DecidableEq, Repr

/-- update_stub_mapping for a stub_by attribute whose two arguments already
resolved to the given canonical paths (extract_stub_by succeeded): insert
the pair; when the insert returns a previous binding, emit the duplicate
diagnostic built from the original, the new replacement and the previous
one. -/
def update_stub_mapping (original replacement : String) (st : CollectState) :
    CollectState :=
  let inserted := map_insert st.stub_pairs original replacement
  match inserted.1 with
  | some other =>
    { stub_pairs := inserted.2,
      errors := st.errors ++
        ["duplicate stub mapping: " ++ original ++ " mapped to " ++
          replacement ++ " AND " ++ other] }
  | none => { stub_pairs := inserted.2, errors := st.errors }

/-- The per-harness collection loop of after_analysis, fed the resolved
pairs of the stub_by attributes of one harness in attribute order. -/
def collect_harness (pairs : List (String × String)) : CollectState :=
  pairs.foldl (fun st p => update_stub_mapping p.1 p.2 st) ⟨[], []⟩

/-- tcx.sess.abort_if_errors at the end of after_analysis: the session
aborts exactly when a diagnostic was emitted. -/
def session_aborts (st : CollectState) : Bool :=
  !st.errors.isEmpty

/-! ## Helper lemmas about map insertion and the legacy parser -/

theorem map_insert_lookup (m : List (String × String)) (k v k' : String) :
    List.lookup k' (map_insert m k v).2 =
      if k = k' then some v else List.lookup k' m := by
  induction m with
  | nil =>
    by_cases h : k = k'
    · simp [map_insert, List.lookup, h]
    · have hb : (k' == k) = false := beq_eq_false_iff_ne.mpr (fun hh => h hh.symm)
      simp [map_insert, List.lookup, h, hb]
  | cons p rest ih =>
    obtain ⟨a, b⟩ := p
    by_cases hak : a = k
    · subst hak
      by_cases h : a = k'
      · simp [map_insert, List.lookup, h]
      · have hb : (k' == a) = false := beq_eq_false_iff_ne.mpr (fun hh => h hh.symm)
        simp [map_insert, List.lookup, h, hb]
    · by_cases h : a = k'
      · subst h
        have hk : ¬(k = a) := fun hh => hak hh.symm
        have hb : (a == a) = true := beq_self_eq_true a
        simp [map_insert, hak, List.lookup, ih, hk, hb]
      · have hb : (k' == a) = false := beq_eq_false_iff_ne.mpr (fun hh => h hh.symm)
        simp [map_insert, hak, List.lookup, h, hb, ih]

theorem map_insert_fst (m : List (String × String)) (k v : String) :
    (map_insert m k v).1 = List.lookup k m := by
  induction m with
  | nil => simp [map_insert, List.lookup]
  | cons p rest ih =>
    obtain ⟨a, b⟩ := p
    by_cases hak : a = k
    · subst hak
      simp [map_insert, List.lookup]
    · have hb : (k == a) = false := beq_eq_false_iff_ne.mpr (fun hh => hak hh.symm)
      simp [map_insert, hak, List.lookup, hb, ih]

theorem length_two_pair {l : List String} (h : l.length = 2) :
    ∃ a b, l = [a, b] := by
  match l with
  | [a, b] => exact ⟨a, b, rfl⟩
  | [] => simp at h
  | [a] => simp at h
  | a :: b :: c :: t => simp at h

theorem parse_stub_line_eq_none {l : String}
    (h : (split_space l).length ≠ 2) : parse_stub_line l = none := by
  unfold parse_stub_line
  cases hsp : split_space l with
  | nil => rfl
  | cons a t =>
    cases t with
    | nil => rfl
    | cons b t2 =>
      cases t2 with
      | nil => rw [hsp] at h; simp at h
      | cons c t3 => rfl

theorem stub_map_init_go_wf (lines : List String) :
    ∀ m, (∀ l ∈ lines, (split_space l).length = 2) →
    ∃ mf, stub_map_init_go m lines = some mf ∧
      ∀ k, List.lookup k mf =
        match last_binding lines k with
        | some v => some v
        | none => List.lookup k m := by
  induction lines with
  | nil =>
    intro m _
    exact ⟨m, rfl, fun k => by simp [last_binding]⟩
  | cons line rest ih =>
    intro m hwf
    obtain ⟨a, b, hab⟩ := length_two_pair (hwf line (by simp))
    obtain ⟨mf, hgo, hlook⟩ :=
      ih (map_insert m a b).2 (fun l2 hl2 => hwf l2 (by simp [hl2]))
    refine ⟨mf, ?_, ?_⟩
    · simp [stub_map_init_go, parse_stub_line, hab, hgo]
    · intro k
      have hml := map_insert_lookup m a b k
      have := hlook k
      simp [last_binding, hab]
      cases hlb : last_binding rest k with
      | some v => rw [hlb] at this; simpa using this
      | none =>
        rw [hlb] at this
        rw [this, hml]
        by_cases hk : a = k <;> simp [hk]

/-! ## Theorems -/

/-- A small compilation universe shared by the witnesses of the pipeline
claims: two local functions foo and bar with distinct bodies. -/
def sample_ctx : Ctx := ⟨[⟨"foo", 10⟩, ⟨"bar", 20⟩]⟩

/-- Claim C1: for every definition D whose canonical path is a key of the
active stub map and whose mapped replacement path equals the canonical path
of some local definition R (and the replacement is not itself stubbed, so
the recursive query returns the base body of R), the intercepted
optimized-body query for D returns the optimized body of R: the target body
is overwritten with a clone of the body the query computes for R. -/
theorem stub_hit_returns_replacement_body (fuel : Nat) (ctx : Ctx)
    (m : List (String × String)) (d rid : Nat) (repl : String)
    (hm : m.lookup (ctx.def_path_str d) = some repl)
    (hr : get_def_id ctx repl = some rid)
    (hnr : m.lookup (ctx.def_path_str rid) = none) :
    optimized_mir (fuel + 2) ctx m d = optimized_mir (fuel + 1) ctx m rid ∧
    optimized_mir (fuel + 2) ctx m d = some (ctx.default_body rid) := by
  have h1 : optimized_mir (fuel + 2) ctx m d = optimized_mir (fuel + 1) ctx m rid := by
    show optimized_mir (fuel + 1 + 1) ctx m d = _
    simp [optimized_mir, run_kani_passes, stubbing_run_pass, hm, hr]
  have h2 : optimized_mir (fuel + 1) ctx m rid = some (ctx.default_body rid) := by
    simp [optimized_mir, run_kani_passes, stubbing_run_pass, hnr]
  exact ⟨h1, h1.trans h2⟩

/-- Witness for C1: in sample_ctx with the map sending foo to bar, the body
query for foo (definition 0) returns the body of bar (definition 1). -/
theorem stub_hit_returns_replacement_body_witness :
    optimized_mir 2 sample_ctx [("foo", "bar")] 0 =
      some (sample_ctx.default_body 1) :=
  (stub_hit_returns_replacement_body 0 sample_ctx [("foo", "bar")] 0 1 "bar"
    (by decide) (by decide) (by decide)).2

/-- Claim C2: for every definition D whose canonical path is not a key of
the active stub map, the intercepted query returns the body produced by the
default provider, in the kani pipeline and in the codegen_cprover_gotoc
pipeline alike; the identity pass changes nothing. -/
theorem unstubbed_body_unchanged (fuel : Nat) (ctx : Ctx)
    (m : List (String × String)) (d : Nat)
    (hm : m.lookup (ctx.def_path_str d) = none) :
    optimized_mir (fuel + 1) ctx m d = some (ctx.default_body d) ∧
    gotoc_optimized_mir (fuel + 1) ctx m d = some (ctx.default_body d) ∧
    ∀ b, identity_run_pass b = b := by
  refine ⟨?_, ?_, fun b => rfl⟩
  · simp [optimized_mir, run_kani_passes, stubbing_run_pass, hm]
  · simp [gotoc_optimized_mir, gotoc_run_kani_passes, stubbing_run_pass,
      identity_run_pass, hm]

/-- Witness for C2: in sample_ctx with the map sending foo to bar, the body
query for bar (definition 1, not a key) returns its own base body. -/
theorem unstubbed_body_unchanged_witness :
    optimized_mir 1 sample_ctx [("foo", "bar")] 1 =
      some (sample_ctx.default_body 1) :=
  (unstubbed_body_unchanged 0 sample_ctx [("foo", "bar")] 1 (by decide)).1

/-- Claim C3: for a definition whose canonical path is a key of the active
stub map but whose replacement path matches no local definition, the query
leaves the body unchanged and still succeeds: the miss produces no
diagnostic and no abort, only a log line outside the embedded state. -/
theorem missing_replacement_keeps_body (fuel : Nat) (ctx : Ctx)
    (m : List (String × String)) (d : Nat) (repl : String)
    (hm : m.lookup (ctx.def_path_str d) = some repl)
    (hr : get_def_id ctx repl = none) :
    optimized_mir (fuel + 1) ctx m d = some (ctx.default_body d) ∧
    (optimized_mir (fuel + 1) ctx m d).isSome = true := by
  have h : optimized_mir (fuel + 1) ctx m d = some (ctx.default_body d) := by
    simp [optimized_mir, run_kani_passes, stubbing_run_pass, hm, hr]
  exact ⟨h, by simp [h]⟩

/-- Witness for C3: mapping foo to the nonexistent baz leaves the body of
foo unchanged and the query succeeds. -/
theorem missing_replacement_keeps_body_witness :
    optimized_mir 1 sample_ctx [("foo", "baz")] 0 =
      some (sample_ctx.default_body 0) :=
  (missing_replacement_keeps_body 0 sample_ctx [("foo", "baz")] 0 "baz"
    (by decide) (by decide)).1

/-- Counterexample to claim C5: two stub_by attributes on one harness
mapping crate::foo first to crate::a and then to crate::b.  The emitted
diagnostic names the second replacement before the first, not the first
before the second, and the harness stub set retains the second binding,
not the first. -/
theorem duplicate_stub_mapping_counterexample :
    (collect_harness [("crate::foo", "crate::a"), ("crate::foo", "crate::b")]).errors =
      ["duplicate stub mapping: crate::foo mapped to crate::b AND crate::a"] ∧
    (collect_harness [("crate::foo", "crate::a"), ("crate::foo", "crate::b")]).errors ≠
      ["duplicate stub mapping: crate::foo mapped to crate::a AND crate::b"] ∧
    List.lookup "crate::foo"
      (collect_harness [("crate::foo", "crate::a"), ("crate::foo", "crate::b")]).stub_pairs =
      some "crate::b" ∧
    List.lookup "crate::foo"
      (collect_harness [("crate::foo", "crate::a"), ("crate::foo", "crate::b")]).stub_pairs ≠
      some "crate::a" := by
  refine ⟨by decide, by decide, by decide, by decide⟩

/-- Claim C5 as amended: when two stub_by attributes on the same harness
resolve to the same original, collection emits the span diagnostic
"duplicate stub mapping: (original) mapped to (second replacement) AND
(first replacement)", the harness stub set retains the second binding, and
the session aborts after the collection pass. -/
theorem duplicate_stub_mapping_second_wins (o r1 r2 : String) (st : CollectState)
    (h : List.lookup o st.stub_pairs = none) :
    List.lookup o
      (update_stub_mapping o r2 (update_stub_mapping o r1 st)).stub_pairs = some r2 ∧
    (update_stub_mapping o r2 (update_stub_mapping o r1 st)).errors =
      st.errors ++
        ["duplicate stub mapping: " ++ o ++ " mapped to " ++ r2 ++ " AND " ++ r1] ∧
    session_aborts (update_stub_mapping o r2 (update_stub_mapping o r1 st)) = true := by
  have e1 : update_stub_mapping o r1 st =
      ⟨(map_insert st.stub_pairs o r1).2, st.errors⟩ := by
    simp only [update_stub_mapping, map_insert_fst, h]
  have hl : List.lookup o (map_insert st.stub_pairs o r1).2 = some r1 := by
    rw [map_insert_lookup]; simp
  have e2 : update_stub_mapping o r2 (update_stub_mapping o r1 st) =
      ⟨(map_insert (map_insert st.stub_pairs o r1).2 o r2).2,
        st.errors ++
          ["duplicate stub mapping: " ++ o ++ " mapped to " ++ r2 ++ " AND " ++ r1]⟩ := by
    rw [e1]
    simp only [update_stub_mapping, map_insert_fst, hl]
  rw [e2]
  refine ⟨?_, rfl, ?_⟩
  · rw [map_insert_lookup]; simp
  · simp [session_aborts]

/-- Witness for the amended C5: from an empty harness state, mapping
crate::foo to crate::a and then to crate::b retains crate::b, emits the
diagnostic with crate::b before crate::a, and aborts the session. -/
theorem duplicate_stub_mapping_second_wins_witness :
    List.lookup "crate::foo"
      (update_stub_mapping "crate::foo" "crate::b"
        (update_stub_mapping "crate::foo" "crate::a" ⟨[], []⟩)).stub_pairs =
      some "crate::b" ∧
    (update_stub_mapping "crate::foo" "crate::b"
        (update_stub_mapping "crate::foo" "crate::a" ⟨[], []⟩)).errors =
      [] ++ ["duplicate stub mapping: " ++ "crate::foo" ++ " mapped to " ++
        "crate::b" ++ " AND " ++ "crate::a"] ∧
    session_aborts (update_stub_mapping "crate::foo" "crate::b"
        (update_stub_mapping "crate::foo" "crate::a" ⟨[], []⟩)) = true :=
  duplicate_stub_mapping_second_wins "crate::foo" "crate::a" "crate::b" ⟨[], []⟩
    (by decide)

/-- Counterexample to claim C8: installation is not write-once and a second
install attempt is not detectable.  Installing a second map silently
replaces the first: after the two installs the slot holds the second map
and no longer the first, and set_stub_mapping signals nothing. -/
theorem stub_map_reinstall_counterexample :
    set_stub_mapping (set_stub_mapping none [("a", "b")]) [("c", "d")] =
      some [("c", "d")] ∧
    set_stub_mapping (set_stub_mapping none [("a", "b")]) [("c", "d")] ≠
      some [("a", "b")] := by
  exact ⟨rfl, by decide⟩

/-- Claim C8 as amended: installation unconditionally overwrites the slot,
ignoring any previously installed map; after an install, a reader observes
exactly the most recently installed map.  A second install is neither
prevented nor detected (and the source in fact installs the map in both
provide and provide_extern), so the write-once discipline rests on the
driver, not on the store. -/
theorem stub_map_install_overwrites (slot : Option (List (String × String)))
    (mapping : List (String × String)) :
    set_stub_mapping slot mapping = some mapping ∧
    read_stub_mapping (set_stub_mapping slot mapping) = some mapping :=
  ⟨rfl, rfl⟩

/-- Claim C9: on a well-formed legacy stubs file (every line exactly two
space-separated tokens) the installer succeeds, binds every ORIGINAL to its
REPLACEMENT with lines applied in order so that the last occurrence of a
duplicated ORIGINAL wins, and the one-line file "a::b c::d" yields the
single-binding map from a::b to c::d. -/
theorem stub_file_last_wins (lines : List String) (k : String)
    (hwf : ∀ l ∈ lines, (split_space l).length = 2) :
    (∃ m, stub_map_init lines = some m ∧
      List.lookup k m = last_binding lines k) ∧
    stub_map_init ["a::b c::d"] = some [("a::b", "c::d")] := by
  constructor
  · obtain ⟨mf, hgo, hlook⟩ := stub_map_init_go_wf lines [] hwf
    refine ⟨mf, hgo, ?_⟩
    have := hlook k
    cases hlb : last_binding lines k <;> rw [hlb] at this <;> simpa using this
  · decide

/-- Witness for C9: the two-line file mapping x to y and then x to z yields
a successful map whose binding for x is the last one, z. -/
theorem stub_file_last_wins_witness :
    (∃ m, stub_map_init ["x y", "x z"] = some m ∧
      List.lookup "x" m = last_binding ["x y", "x z"] "x") ∧
    stub_map_init ["a::b c::d"] = some [("a::b", "c::d")] :=
  stub_file_last_wins ["x y", "x z"] "x" (by decide)

theorem stub_map_init_go_panics (pre : List String) :
    ∀ m l post, (∀ l2 ∈ pre, (split_space l2).length = 2) →
    (split_space l).length ≠ 2 →
    stub_map_init_go m (pre ++ l :: post) = none := by
  induction pre with
  | nil =>
    intro m l post _ hbad
    simp [stub_map_init_go, parse_stub_line_eq_none hbad]
  | cons p rest ih =>
    intro m l post hwf hbad
    obtain ⟨a, b, hab⟩ := length_two_pair (hwf p (by simp))
    simp only [List.cons_append, stub_map_init_go, parse_stub_line, hab]
    exact ih _ l post (fun l2 hl2 => hwf l2 (by simp [hl2])) hbad

/-- Claim C10: the legacy installer panics through the failed length
assertion on any readable line that does not split on single spaces into
exactly two tokens, whatever well-formed lines precede it; under the
precondition that every line has exactly two tokens the assertion branch is
unreachable and initialization completes. -/
theorem stub_file_malformed_line_panics :
    (∀ pre l post, (∀ l2 ∈ pre, (split_space l2).length = 2) →
      (split_space l).length ≠ 2 →
      stub_map_init (pre ++ l :: post) = none) ∧
    (∀ lines, (∀ l ∈ lines, (split_space l).length = 2) →
      (stub_map_init lines).isSome = true) := by
  constructor
  · intro pre l post hwf hbad
    exact stub_map_init_go_panics pre [] l post hwf hbad
  · intro lines hwf
    obtain ⟨mf, hgo, _⟩ := stub_map_init_go_wf lines [] hwf
    simp [stub_map_init, hgo]

/-- Witness for C10: an empty line after a well-formed line aborts the
installer, a one-token line aborts it, a doubled space aborts it, and a
well-formed file completes. -/
theorem stub_file_malformed_line_panics_witness :
    stub_map_init (["a::b c::d"] ++ "" :: []) = none ∧
    stub_map_init ([] ++ "ab" :: []) = none ∧
    stub_map_init ([] ++ "a  b" :: []) = none ∧
    (stub_map_init ["p q"]).isSome = true :=
  ⟨stub_file_malformed_line_panics.1 ["a::b c::d"] "" [] (by decide) (by decide),
   stub_file_malformed_line_panics.1 [] "ab" [] (by decide) (by decide),
   stub_file_malformed_line_panics.1 [] "a  b" [] (by decide) (by decide),
   stub_file_malformed_line_panics.2 ["p q"] (by decide)⟩

/-! ## Concrete compilation universes for the resolver claims -/

/-- Universe for the import-order counterexample: the crate root (module 0)
enumerates a glob import of module inner (definition 1) before a directly
defined function f (definition 3, canonical path f); module inner directly
defines its own function f (definition 2, canonical path inner::f). -/
def tcx_c4 : Tcx where
  def_path_str := fun d =>
    match d with
    | 1 => "inner"
    | 2 => "inner::f"
    | 3 => "f"
    | _ => ""
  module_items := fun m =>
    match m with
    | 0 => [⟨"inner", 4, ItemKind.Use (Res.Def DefKind.Mod 1) UseKind.Glob⟩,
            ⟨"f", 3, ItemKind.Fn⟩]
    | 1 => [⟨"f", 2, ItemKind.Fn⟩]
    | _ => []
  parent_module := fun _ => 0
  module_children := fun _ => []
  crates := []
  crate_name := fun _ => ""
  crate_root := fun _ => 0
  is_local := fun _ => true

/-- The same module contents as tcx_c4 with the enumeration order of the
root items reversed: the directly defined f comes first. -/
def tcx_c4_direct : Tcx where
  def_path_str := fun d =>
    match d with
    | 1 => "inner"
    | 2 => "inner::f"
    | 3 => "f"
    | _ => ""
  module_items := fun m =>
    match m with
    | 0 => [⟨"f", 3, ItemKind.Fn⟩,
            ⟨"inner", 4, ItemKind.Use (Res.Def DefKind.Mod 1) UseKind.Glob⟩]
    | 1 => [⟨"f", 2, ItemKind.Fn⟩]
    | _ => []
  parent_module := fun _ => 0
  module_children := fun _ => []
  crates := []
  crate_name := fun _ => ""
  crate_root := fun _ => 0
  is_local := fun _ => true

/-- Universe for the round-trip counterexample: module 1 (canonical path
inner) directly defines function 2 with canonical path inner::f. -/
def tcx_c6 : Tcx where
  def_path_str := fun d =>
    match d with
    | 1 => "inner"
    | 2 => "inner::f"
    | _ => ""
  module_items := fun m =>
    match m with
    | 1 => [⟨"f", 2, ItemKind.Fn⟩]
    | _ => []
  parent_module := fun _ => 0
  module_children := fun _ => []
  crates := []
  crate_name := fun _ => ""
  crate_root := fun _ => 0
  is_local := fun _ => true

/-- Universe for the root round-trip witness: the crate root directly
defines function 1 with canonical path g. -/
def tcx_c6_root : Tcx where
  def_path_str := fun d =>
    match d with
    | 1 => "g"
    | _ => ""
  module_items := fun m =>
    match m with
    | 0 => [⟨"g", 1, ItemKind.Fn⟩]
    | _ => []
  parent_module := fun _ => 0
  module_children := fun _ => []
  crates := []
  crate_name := fun _ => ""
  crate_root := fun _ => 0
  is_local := fun _ => true

/-- Universe for the single-import claims: module 5 has canonical path
top::m (so an import of it under the local name m is not a rename) and
directly defines function 6 with canonical path top::m::f. -/
def tcx_c7 : Tcx where
  def_path_str := fun d =>
    match d with
    | 5 => "top::m"
    | 6 => "top::m::f"
    | _ => ""
  module_items := fun m =>
    match m with
    | 5 => [⟨"f", 6, ItemKind.Fn⟩]
    | _ => []
  parent_module := fun _ => 0
  module_children := fun _ => []
  crates := []
  crate_name := fun _ => ""
  crate_root := fun _ => 0
  is_local := fun _ => true

/-- Counterexample to claim C4: imports are not deferred to a second pass.
In tcx_c4 the root module contains the directly defined function f and,
earlier in enumeration order, a glob import through which f also resolves;
resolution returns inner::f, not the directly defined f.  With the same
contents enumerated in the other order (tcx_c4_direct) it returns f, so the
result depends on the enumeration order. -/
theorem resolver_import_order_counterexample :
    try_resolve_relative_path 5 tcx_c4 0 ["f"] = some "inner::f" ∧
    try_resolve_relative_path 5 tcx_c4 0 ["f"] ≠ some "f" ∧
    tcx_c4.def_path_str 3 = "f" ∧
    (⟨"f", 3, ItemKind.Fn⟩ : Item) ∈ tcx_c4.module_items 0 ∧
    try_resolve_relative_path 5 tcx_c4_direct 0 ["f"] = some "f" := by
  refine ⟨by decide, by decide, by decide, by decide, by decide⟩

/-- Claim C4 as amended: imports found among the module children are
explored immediately after the child that introduces them, not in a second
pass, so a directly defined function shadows an import only when it is
enumerated before the import; in particular, when the matching function
item comes first in the enumeration its canonical path is returned. -/
theorem resolver_first_item_direct_fn_wins (fuel : Nat) (tcx : Tcx) (cm : Nat)
    (path : List String) (it : Item) (rest : List Item)
    (hitems : tcx.module_items cm = it :: rest)
    (hkind : it.kind = ItemKind.Fn)
    (hname : tcx.def_path_str it.def_id =
      qualify (tcx.def_path_str cm) (join_path path)) :
    try_resolve_relative_path (fuel + 1) tcx cm path =
      some (tcx.def_path_str it.def_id) := by
  simp only [try_resolve_relative_path, hitems, resolve_in_items, hkind]
  rw [← hname]
  simp

/-- Witness for the amended C4: with the directly defined f enumerated
first, relative search at the root of tcx_c4_direct returns its canonical
path. -/
theorem resolver_first_item_direct_fn_wins_witness :
    try_resolve_relative_path 5 tcx_c4_direct 0 ["f"] =
      some (tcx_c4_direct.def_path_str 3) :=
  resolver_first_item_direct_fn_wins 4 tcx_c4_direct 0 ["f"]
    ⟨"f", 3, ItemKind.Fn⟩
    [⟨"inner", 4, ItemKind.Use (Res.Def DefKind.Mod 1) UseKind.Glob⟩]
    (by decide) (by decide) (by decide)

/-- Counterexample to claim C6: the round-trip law fails away from the
crate root.  Function 2 is a direct child of module 1 (hence visible from
it) with canonical path inner::f, yet resolving the string inner::f against
module 1 fails, because relative search prepends the module path and looks
for inner::inner::f. -/
theorem resolver_roundtrip_counterexample :
    (⟨"f", 2, ItemKind.Fn⟩ : Item) ∈ tcx_c6.module_items 1 ∧
    tcx_c6.def_path_str 2 = "inner::f" ∧
    try_resolve 5 tcx_c6 "inner::f" 1 = none := by
  refine ⟨by decide, by decide, by decide⟩

theorem resolve_in_items_fn_found (resolve_mod : Nat → List String → Option String)
    (tcx : Tcx) (path : List String) (name p : String) :
    ∀ items : List Item,
    (∀ it2 ∈ items, it2.kind = ItemKind.Fn ∨ it2.kind = ItemKind.Other) →
    (∃ it ∈ items, it.kind = ItemKind.Fn ∧ tcx.def_path_str it.def_id = p) →
    resolve_in_items resolve_mod tcx path name p items = some p := by
  intro items
  induction items with
  | nil => intro _ hex; simp at hex
  | cons it2 rest ih =>
    intro hall hex
    rcases hall it2 (by simp) with hk | hk
    · by_cases hp : p = tcx.def_path_str it2.def_id
      · simp [resolve_in_items, hk, hp]
      · simp only [resolve_in_items, hk]
        rw [if_neg hp]
        apply ih (fun x hx => hall x (by simp [hx]))
        rcases hex with ⟨it, hit, hfn, hps⟩
        rcases List.mem_cons.mp hit with he | he
        · exact absurd (by rw [← hps, he]) hp
        · exact ⟨it, he, hfn, hps⟩
    · simp only [resolve_in_items, hk]
      apply ih (fun x hx => hall x (by simp [hx]))
      rcases hex with ⟨it, hit, hfn, hps⟩
      rcases List.mem_cons.mp hit with he | he
      · rw [he, hk] at hfn; exact absurd hfn (by simp)
      · exact ⟨it, he, hfn, hps⟩

/-- Claim C6 as amended: the round-trip law holds at the crate root for
functions defined directly in it.  When the current module is the crate
root, the canonical path of a directly defined function is a single
non-keyword segment, and the module contains only function and otherwise
ignored items (no imports that could shadow by local identifier),
resolution of that canonical path returns it. -/
theorem resolver_roundtrip_at_root (fuel : Nat) (tcx : Tcx) (cm : Nat) (p : String)
    (hroot : tcx.def_path_str cm = "")
    (hseg : split_path_string p = [p])
    (habs : is_absolute_path [p] = false)
    (hall : ∀ it2 ∈ tcx.module_items cm,
      it2.kind = ItemKind.Fn ∨ it2.kind = ItemKind.Other)
    (hex : ∃ it ∈ tcx.module_items cm,
      it.kind = ItemKind.Fn ∧ tcx.def_path_str it.def_id = p) :
    try_resolve (fuel + 1) tcx p cm = some p := by
  have h1 : try_resolve (fuel + 1) tcx p cm =
      try_resolve_relative_path (fuel + 1) tcx cm [p] := by
    simp [try_resolve, hseg, habs]
  rw [h1]
  simp only [try_resolve_relative_path]
  have hj : join_path [p] = p := rfl
  rw [hj, hroot]
  have hq : qualify "" p = p := by simp [qualify]
  rw [hq]
  exact resolve_in_items_fn_found _ tcx [p] p p (tcx.module_items cm) hall hex

/-- Witness for the amended C6: resolving g against the crate root of
tcx_c6_root returns g. -/
theorem resolver_roundtrip_at_root_witness :
    try_resolve 5 tcx_c6_root "g" 0 = some "g" :=
  resolver_roundtrip_at_root 4 tcx_c6_root 0 "g"
    (by decide) (by decide) (by decide) (by decide) (by decide)

/-- Counterexample to claim C7: a single import of a module is enqueued
exactly when its local name equals the first user-path segment, independent
of any renaming, and otherwise it is not enqueued at all.  First conjunct:
local name x, user path y — the claim demands an enqueue with the
unmodified path, the code enqueues nothing.  Last conjunct: local name m
equals the last segment of the canonical path top::m of module 5 (no
rename), user path m::f — the claim demands an enqueue with the unmodified
path, the code enqueues the shortened tail. -/
theorem single_import_enqueue_counterexample :
    used_mods_for ⟨"x", 9, ItemKind.Use (Res.Def DefKind.Mod 5) UseKind.Single⟩ 5
      UseKind.Single ["y"] = [] ∧
    tcx_c7.def_path_str 5 = "top::m" ∧
    used_mods_for ⟨"m", 9, ItemKind.Use (Res.Def DefKind.Mod 5) UseKind.Single⟩ 5
      UseKind.Single ["m", "f"] = [(5, some ["f"])] := by
  refine ⟨by decide, by decide, by decide⟩

/-- Claim C7 as amended: during relative search, a single import of a
module with local name L is explored, with the shortened tail P drop 1,
exactly when L equals the first segment of P — whether or not L renames the
imported module — and in every other case the import is skipped entirely
rather than explored with the unmodified P. -/
theorem single_import_explore (resolve_mod : Nat → List String → Option String)
    (tcx : Tcx) (it : Item) (rest : List Item) (mod_id : Nat) (p0 : String)
    (ptail : List String) (name qual : String)
    (hkind : it.kind = ItemKind.Use (Res.Def DefKind.Mod mod_id) UseKind.Single) :
    resolve_in_items resolve_mod tcx (p0 :: ptail) name qual (it :: rest) =
      if it.ident = p0 then
        match resolve_mod mod_id ptail with
        | some r => some r
        | none => resolve_in_items resolve_mod tcx (p0 :: ptail) name qual rest
      else resolve_in_items resolve_mod tcx (p0 :: ptail) name qual rest := by
  simp only [resolve_in_items, hkind, try_resolve_use, used_mods_for]
  by_cases hid : it.ident = p0
  · simp only [hid, if_pos rfl, List.findSome?]
    cases hr : resolve_mod mod_id ptail <;> simp [hr]
  · simp [hid]

/-- Witness for the amended C7: the single import of module 5 under the
non-renaming local name m, met with the user path m::f, is explored with
the shortened tail f and yields the canonical path of top::m::f. -/
theorem single_import_explore_witness :
    resolve_in_items
      (fun mid p => if mid = 5 then (if p = ["f"] then some "top::m::f" else none)
        else none)
      tcx_c7 ["m", "f"] "m::f" "q"
      [⟨"m", 9, ItemKind.Use (Res.Def DefKind.Mod 5) UseKind.Single⟩] =
      some "top::m::f" := by
  rw [single_import_explore
    (fun mid p => if mid = 5 then (if p = ["f"] then some "top::m::f" else none)
      else none)
    tcx_c7 ⟨"m", 9, ItemKind.Use (Res.Def DefKind.Mod 5) UseKind.Single⟩ [] 5 "m"
    ["f"] "m::f" "q" (by decide)]
  decide

end Kani
